import Mathlib

/-!
Verification of the PubSub demo file server (`demo/serve.py`).

The development shallowly embeds the request handler `PubSubDemoHandler.do_GET`
together with the Python standard-library routines it calls
(`urllib.parse.urlparse`/`parse_qs`, `base64.urlsafe_b64decode` in its default
non-strict mode, `bytes.decode("utf-8")`, `json.loads`, and the `dict.get`,
slicing, `len` and `str` operations used by the log statements).  Python
strings are modelled as Lean strings (sequences of Unicode scalar values),
bytes as `Nat` values below 256, and raised exceptions as an explicit error
type threaded through `Except`.
-/

namespace PubSubDemo

/-- A single-quote character, used when rendering Python error messages and
`repr` output. -/
def sq : String := String.singleton (Char.ofNat 39)

/-- Wrap a string in single quotes, as Python `repr` does for `str` and as
many CPython error messages do for type names. -/
def quoted (s : String) : String := sq ++ s ++ sq

/-- Exceptions that the decode-and-log block of `do_GET` can raise.  Every
constructor carries the text that Python `str(e)` would render, since the
handler only ever uses the exception through the f-string `{e}`. -/
inductive PyErr where
  | valueError (msg : String)
  | binasciiError (msg : String)
  | unicodeDecodeError (msg : String)
  | jsonDecodeError (msg : String)
  | typeError (msg : String)
  | attributeError (msg : String)
deriving Repr, DecidableEq

/-- Python `str(e)` for the exceptions of `PyErr`: all of them render as
their message. -/
def errStr : PyErr → String
  | .valueError m => m
  | .binasciiError m => m
  | .unicodeDecodeError m => m
  | .jsonDecodeError m => m
  | .typeError m => m
  | .attributeError m => m

/-- Python values produced by `json.loads`: JSON null, booleans, integers,
floats, strings, arrays (Python lists) and objects (Python dicts, kept as the
parsed key/value sequence; lookup takes the last binding, as building a
`dict` from pairs does).  Float values are kept as their source text: the
handler never computes with floats, it at most formats one. -/
inductive JValue where
  | jnull
  | jbool (b : Bool)
  | jnum (n : Int)
  | jfloat (raw : String)
  | jstr (s : String)
  | jarr (items : List JValue)
  | jobj (fields : List (String × JValue))
deriving Repr

/-- Python `type(v).__name__` for the embedded values. -/
def typeName : JValue → String
  | .jnull => "NoneType"
  | .jbool _ => "bool"
  | .jnum _ => "int"
  | .jfloat _ => "float"
  | .jstr _ => "str"
  | .jarr _ => "list"
  | .jobj _ => "dict"

mutual

/-- Python `repr` of an embedded value (string escaping inside `repr` is
kept minimal: only the quotes are modelled; the handler never reaches
`repr` of a container in any claim). -/
def pyRepr : JValue → String
  | .jnull => "None"
  | .jbool true => "True"
  | .jbool false => "False"
  | .jnum n => toString n
  | .jfloat raw => raw
  | .jstr s => quoted s
  | .jarr xs => "[" ++ String.intercalate ", " (pyReprList xs) ++ "]"
  | .jobj fs => "\x7b" ++ String.intercalate ", " (pyReprFields fs) ++ "\x7d"

/-- Renders each element of a Python list for `pyRepr`. -/
def pyReprList : List JValue → List String
  | [] => []
  | x :: xs => pyRepr x :: pyReprList xs

/-- Renders each key/value pair of a Python dict for `pyRepr`. -/
def pyReprFields : List (String × JValue) → List String
  | [] => []
  | (k, v) :: fs => (quoted k ++ ": " ++ pyRepr v) :: pyReprFields fs

end

/-- Python `str` of an embedded value, as an f-string interpolation renders
it: a string renders as itself, the scalar constants as their canonical
text (which coincides with their `repr`), containers as their `repr`. -/
def pyStr : JValue → String
  | .jstr s => s
  | .jnull => "None"
  | .jbool true => "True"
  | .jbool false => "False"
  | .jnum n => toString n
  | .jfloat raw => raw
  | .jarr xs => pyRepr (.jarr xs)
  | .jobj fs => pyRepr (.jobj fs)

/-- Lookup in the parsed key/value sequence of a JSON object with Python
`dict` semantics: the LAST binding of a repeated key wins, since
`json.loads` builds the dict by inserting the pairs in order. -/
def dictFind (fs : List (String × JValue)) (k : String) : Option JValue :=
  match fs with
  | [] => none
  | (k0, v) :: rest =>
    match dictFind rest k with
    | some v2 => some v2
    | none => if k0 = k then some v else none

/-- Python `event.get(key, default)`: succeeds on a dict, raises
`AttributeError` on every other value (line 48-51 of `serve.py` call this on
whatever `json.loads` returned). -/
def pyGet (ev : JValue) (k : String) (dflt : JValue) : Except PyErr JValue :=
  match ev with
  | .jobj fs => .ok ((dictFind fs k).getD dflt)
  | v => .error (.attributeError
      (quoted (typeName v) ++ " object has no attribute " ++ quoted "get"))

/-- Python slicing `v[:n]`: defined on strings and lists, raises `TypeError`
elsewhere. -/
def pySliceTo (v : JValue) (n : Nat) : Except PyErr JValue :=
  match v with
  | .jstr s => .ok (.jstr (String.mk (s.data.take n)))
  | .jarr xs => .ok (.jarr (xs.take n))
  | .jobj _ => .error (.typeError ("unhashable type: " ++ quoted "slice"))
  | v => .error (.typeError (quoted (typeName v) ++ " object is not subscriptable"))

/-- Python `len(v)`: defined on strings, lists and dicts (distinct keys),
raises `TypeError` elsewhere. -/
def pyLen (v : JValue) : Except PyErr Nat :=
  match v with
  | .jstr s => .ok s.data.length
  | .jarr xs => .ok xs.length
  | .jobj fs => .ok ((fs.map Prod.fst).eraseDups.length)
  | v => .error (.typeError ("object of type " ++ quoted (typeName v) ++ " has no len()"))

/-! ### base64 decoding (`base64.urlsafe_b64decode`, non-strict mode)

`urlsafe_b64decode` first requires the string to be ASCII, then translates
`-` to `+` and `_` to `/`, and runs `binascii.a2b_base64` with
`strict_mode=False`.  In that mode characters outside the alphabet are
discarded, a `=` while fewer than two alphabet characters of the current
quantum have been seen is ignored, and enough `=` padding ends decoding
successfully, discarding the rest of the input. -/

/-- Value of a character in the standard base64 alphabet (after the urlsafe
translation), `none` for every character `binascii` discards in non-strict
mode. -/
def b64Table (c : Char) : Option Nat :=
  let n := c.toNat
  if 65 ≤ n ∧ n ≤ 90 then some (n - 65)
  else if 97 ≤ n ∧ n ≤ 122 then some (n - 97 + 26)
  else if 48 ≤ n ∧ n ≤ 57 then some (n - 48 + 52)
  else if n = 43 then some 62
  else if n = 47 then some 63
  else none

/-- The urlsafe alphabet translation `-` to `+`, `_` to `/` applied by
`base64.urlsafe_b64decode` before calling `b64decode`. -/
def urlsafeTranslate (c : Char) : Char :=
  if c = '-' then '+' else if c = '_' then '/' else c

/-- State of the `binascii.a2b_base64` loop: position within the current
four-character quantum, the bits left over from the previous character, the
count of padding characters seen for the current quantum, and the bytes
emitted so far. -/
structure B64State where
  quadPos : Nat
  leftchar : Nat
  pads : Nat
  out : List Nat
deriving Repr, DecidableEq

/-- Initial `a2b_base64` state. -/
def b64Init : B64State := ⟨0, 0, 0, []⟩

/-- One alphabet character of value `v` (`v < 64`) fed to the `a2b_base64`
loop: advances the quantum position, emits a byte on positions 1, 2 and 3,
and resets the padding count. -/
def b64DataStep (st : B64State) (v : Nat) : B64State :=
  match st.quadPos with
  | 0 => ⟨1, v, 0, st.out⟩
  | 1 => ⟨2, v % 16, 0, st.out ++ [st.leftchar * 4 + v / 16]⟩
  | 2 => ⟨3, v % 4, 0, st.out ++ [st.leftchar * 16 + v / 4]⟩
  | _ => ⟨0, 0, 0, st.out ++ [st.leftchar * 64 + v]⟩

/-- End-of-input check of `a2b_base64`: a quantum position of 0 succeeds,
a position of 1 means the number of data characters was 1 more than a
multiple of 4, positions 2 and 3 mean missing padding. -/
def b64Finish (st : B64State) : Except PyErr (List Nat) :=
  match st.quadPos with
  | 0 => .ok st.out
  | 1 => .error (.binasciiError
      ("Invalid base64-encoded string: number of data characters (" ++
        toString (st.out.length / 3 * 4 + 1) ++
        ") cannot be 1 more than a multiple of 4"))
  | _ => .error (.binasciiError "Incorrect padding")

/-- The `binascii.a2b_base64` character loop in non-strict mode.  A `=` at
quantum position at least 2 counts towards the padding of the quantum and,
once position plus padding reach 4, ends the decode successfully (remaining
input is discarded); a `=` earlier in a quantum is ignored; characters
outside the alphabet are discarded. -/
def a2bGo : List Char → B64State → Except PyErr (List Nat)
  | [], st => b64Finish st
  | c :: rest, st =>
    if c = '=' then
      if 2 ≤ st.quadPos then
        if 4 ≤ st.quadPos + (st.pads + 1) then .ok st.out
        else a2bGo rest ⟨st.quadPos, st.leftchar, st.pads + 1, st.out⟩
      else a2bGo rest st
    else
      match b64Table c with
      | some v => a2bGo rest (b64DataStep st v)
      | none => a2bGo rest st

/-- `base64.urlsafe_b64decode` on a `str` argument: the string must be pure
ASCII (else `binascii`/`base64` raise a `ValueError` while encoding it),
then the urlsafe translation and the non-strict `a2b_base64` loop run. -/
def urlsafe_b64decode (s : String) : Except PyErr (List Nat) :=
  if s.data.all (fun c => c.toNat < 128) then
    a2bGo (s.data.map urlsafeTranslate) b64Init
  else
    .error (.valueError "string argument should contain only ASCII characters")

/-- The padding computed on line 42 of `serve.py`:
`'=' * (4 - len(event_data) % 4)` appends `4 - L % 4` equal signs —
four of them when `L` is already a multiple of 4. -/
def padCount (L : Nat) : Nat := 4 - L % 4

/-- Line 42 of `serve.py`: `padded = event_data + '=' * (4 - len(event_data) % 4)`. -/
def padded (event_data : String) : String :=
  event_data ++ String.mk (List.replicate (padCount event_data.data.length) '=')

/-- The padding amount the SPEC asserts (`(4 - L mod 4) mod 4`); kept
separate from `padCount`, which is what the code computes, so the two can be
compared. -/
def specPadCount (L : Nat) : Nat := (4 - L % 4) % 4

/-! ### UTF-8 decoding (`decoded_bytes.decode("utf-8")`, strict) -/

/-- Message text of a `UnicodeDecodeError` as the handler would format it. -/
def utf8Err (byte : Nat) (posn : Nat) (reason : String) : PyErr :=
  .unicodeDecodeError
    (quoted "utf-8" ++ " codec can" ++ sq ++ "t decode byte 0x" ++
      String.mk [Nat.digitChar (byte / 16 % 16), Nat.digitChar (byte % 16)] ++
      " in position " ++ toString posn ++ ": " ++ reason)

/-- Is `b` a UTF-8 continuation byte? -/
def utf8Cont (b : Nat) : Bool := 0x80 ≤ b ∧ b < 0xC0

/-- Strict UTF-8 decoding of a byte list, as CPython `bytes.decode("utf-8")`
performs it: overlong encodings, surrogate code points and values above
U+10FFFF are rejected via the permitted ranges of the first continuation
byte; `pos` is the index of the current byte in the original input (used in
error messages only). -/
def utf8Go : List Nat → Nat → Except PyErr (List Char)
  | [], _ => .ok []
  | b :: rest, pos =>
    if b < 0x80 then
      (utf8Go rest (pos + 1)).map (fun cs => Char.ofNat b :: cs)
    else if b < 0xC2 then
      .error (utf8Err b pos "invalid start byte")
    else if b < 0xE0 then
      match rest with
      | [] => .error (utf8Err b pos "unexpected end of data")
      | b1 :: rest1 =>
        if utf8Cont b1 then
          (utf8Go rest1 (pos + 2)).map
            (fun cs => Char.ofNat ((b - 0xC0) * 64 + (b1 - 0x80)) :: cs)
        else .error (utf8Err b pos "invalid continuation byte")
    else if b < 0xF0 then
      match rest with
      | [] => .error (utf8Err b pos "unexpected end of data")
      | b1 :: rest1 =>
        if (if b = 0xE0 then 0xA0 ≤ b1 ∧ b1 < 0xC0
            else if b = 0xED then 0x80 ≤ b1 ∧ b1 < 0xA0
            else utf8Cont b1 = true) then
          match rest1 with
          | [] => .error (utf8Err b pos "unexpected end of data")
          | b2 :: rest2 =>
            if utf8Cont b2 then
              (utf8Go rest2 (pos + 3)).map
                (fun cs =>
                  Char.ofNat ((b - 0xE0) * 4096 + (b1 - 0x80) * 64 + (b2 - 0x80)) :: cs)
            else .error (utf8Err b pos "invalid continuation byte")
        else .error (utf8Err b pos "invalid continuation byte")
    else if b < 0xF5 then
      match rest with
      | [] => .error (utf8Err b pos "unexpected end of data")
      | b1 :: rest1 =>
        if (if b = 0xF0 then 0x90 ≤ b1 ∧ b1 < 0xC0
            else if b = 0xF4 then 0x80 ≤ b1 ∧ b1 < 0x90
            else utf8Cont b1 = true) then
          match rest1 with
          | [] => .error (utf8Err b pos "unexpected end of data")
          | b2 :: rest2 =>
            if utf8Cont b2 then
              match rest2 with
              | [] => .error (utf8Err b pos "unexpected end of data")
              | b3 :: rest3 =>
                if utf8Cont b3 then
                  (utf8Go rest3 (pos + 4)).map
                    (fun cs =>
                      Char.ofNat ((b - 0xF0) * 262144 + (b1 - 0x80) * 4096 +
                        (b2 - 0x80) * 64 + (b3 - 0x80)) :: cs)
                else .error (utf8Err b pos "invalid continuation byte")
            else .error (utf8Err b pos "invalid continuation byte")
        else .error (utf8Err b pos "invalid continuation byte")
    else
      .error (utf8Err b pos "invalid start byte")

/-- `decoded_bytes.decode("utf-8")` of line 44 of `serve.py`. -/
def decodeUtf8 (bs : List Nat) : Except PyErr String :=
  (utf8Go bs 0).map String.mk

/-! ### JSON parsing (`json.loads`)

Modelled on the CPython `json` scanner: values are strings, objects, arrays,
`null`/`true`/`false`, numbers (integers parse to `int`, anything with a
fraction or exponent to `float`), and the non-standard constants `NaN`,
`Infinity` and `-Infinity`.  Errors carry a message and the character
position; `jsonLoads` renders them with line and column the way
`json.JSONDecodeError` does.  Lexical fidelity notes: float values and the
constants are kept as their source text (the handler never computes with
them), and a `\uXXXX` escape denoting a lone surrogate — which CPython keeps
in the resulting `str` — is replaced by U+FFFD, since a Lean `Char` cannot
hold a surrogate code point. -/

/-- JSON whitespace (space, tab, newline, carriage return). -/
def jWs (c : Char) : Bool := c = ' ' ∨ c = '\t' ∨ c = '\n' ∨ c = '\r'

/-- Skip JSON whitespace, tracking the character position. -/
def jSkipWs : List Char → Nat → List Char × Nat
  | [], pos => ([], pos)
  | c :: rest, pos =>
    if jWs c then jSkipWs rest (pos + 1) else (c :: rest, pos)

/-- Value of a hexadecimal digit, if any. -/
def hexVal (c : Char) : Option Nat :=
  let n := c.toNat
  if 48 ≤ n ∧ n ≤ 57 then some (n - 48)
  else if 97 ≤ n ∧ n ≤ 102 then some (n - 97 + 10)
  else if 65 ≤ n ∧ n ≤ 70 then some (n - 65 + 10)
  else none

/-- The single-character string escapes of JSON. -/
def jEsc (c : Char) : Option Char :=
  if c = '"' then some '"'
  else if c = '\\' then some '\\'
  else if c = '/' then some '/'
  else if c = 'b' then some (Char.ofNat 8)
  else if c = 'f' then some (Char.ofNat 12)
  else if c = 'n' then some '\n'
  else if c = 'r' then some '\r'
  else if c = 't' then some '\t'
  else none

/-- Code point from a `\uXXXX` escape; CPython keeps a lone surrogate in
the decoded string, which a Lean `Char` cannot represent, so those become
U+FFFD here. -/
def jChr (n : Nat) : Char :=
  if 0xD800 ≤ n ∧ n ≤ 0xDFFF then Char.ofNat 0xFFFD else Char.ofNat n

/-- String body scanner (`py_scanstring`): input starts after the opening
quote, `pos` is the index of the next character, `begin` the index of the
opening quote, `acc` the decoded characters in reverse.  Handles the escape
table, `\uXXXX` escapes, surrogate pairs (a high surrogate followed by a
`\uXXXX` escape that is not a low surrogate is kept alone and the following
escape is rescanned), and rejects raw control characters. -/
def jScanStr : Nat → List Char → Nat → Nat → List Char →
    Except (String × Nat) (String × List Char × Nat)
  | 0, _, pos, _, _ => .error ("Unterminated string starting at", pos)
  | _ + 1, [], _, bg, _ => .error ("Unterminated string starting at", bg)
  | fuel + 1, c :: rest, pos, bg, acc =>
    if c = '"' then .ok (String.mk acc.reverse, rest, pos + 1)
    else if c = '\\' then
      match rest with
      | [] => .error ("Unterminated string starting at", bg)
      | e :: rest1 =>
        if e = 'u' then
          match rest1 with
          | h1 :: h2 :: h3 :: h4 :: rest2 =>
            match hexVal h1, hexVal h2, hexVal h3, hexVal h4 with
            | some v1, some v2, some v3, some v4 =>
              let uni := v1 * 4096 + v2 * 256 + v3 * 16 + v4
              if 0xD800 ≤ uni ∧ uni < 0xDC00 then
                match rest2 with
                | '\\' :: 'u' :: g1 :: g2 :: g3 :: g4 :: rest3 =>
                  match hexVal g1, hexVal g2, hexVal g3, hexVal g4 with
                  | some w1, some w2, some w3, some w4 =>
                    let uni2 := w1 * 4096 + w2 * 256 + w3 * 16 + w4
                    if 0xDC00 ≤ uni2 ∧ uni2 < 0xE000 then
                      jScanStr fuel rest3 (pos + 12) bg
                        (Char.ofNat (0x10000 + (uni - 0xD800) * 1024 + (uni2 - 0xDC00)) :: acc)
                    else jScanStr fuel rest2 (pos + 6) bg (jChr uni :: acc)
                  | _, _, _, _ => .error ("Invalid \\uXXXX escape", pos + 7)
                | _ => jScanStr fuel rest2 (pos + 6) bg (jChr uni :: acc)
              else jScanStr fuel rest2 (pos + 6) bg (jChr uni :: acc)
            | _, _, _, _ => .error ("Invalid \\uXXXX escape", pos + 1)
          | _ => .error ("Invalid \\uXXXX escape", pos + 1)
        else
          match jEsc e with
          | some ec => jScanStr fuel rest1 (pos + 2) bg (ec :: acc)
          | none => .error ("Invalid \\escape", pos)
    else if c.toNat < 0x20 then .error ("Invalid control character at", pos)
    else jScanStr fuel rest (pos + 1) bg (c :: acc)

/-- Numeric value of a list of decimal digit characters. -/
def natDigitsVal (l : List Char) : Nat :=
  l.foldl (fun a c => a * 10 + (c.toNat - 48)) 0

/-- The integer part of a JSON number (`0` or a nonzero digit followed by
digits), returning its digits and the rest. -/
def jIntPart (l : List Char) : Option (List Char × List Char) :=
  match l with
  | '0' :: t => some (['0'], t)
  | c :: _ =>
    if 49 ≤ c.toNat ∧ c.toNat ≤ 57 then
      some (l.takeWhile Char.isDigit, l.dropWhile Char.isDigit)
    else none
  | [] => none

/-- The fractional part `.digits` of a JSON number, if present. -/
def jFracPart (l : List Char) : Option (List Char × List Char) :=
  match l with
  | '.' :: t =>
    match t.takeWhile Char.isDigit with
    | [] => none
    | ds => some ('.' :: ds, t.dropWhile Char.isDigit)
  | _ => none

/-- The exponent part `[eE][+-]?digits` of a JSON number, if present. -/
def jExpPart (l : List Char) : Option (List Char × List Char) :=
  match l with
  | e :: t =>
    if e = 'e' ∨ e = 'E' then
      let (sgn, t1) := match t with
        | '+' :: u => (['+'], u)
        | '-' :: u => (['-'], u)
        | u => (([] : List Char), u)
      match t1.takeWhile Char.isDigit with
      | [] => none
      | ds => some (e :: (sgn ++ ds), t1.dropWhile Char.isDigit)
    else none
  | [] => none

/-- Scan a JSON number (the `NUMBER_RE` match of the Python scanner):
maximal munch of sign, integer part, optional fraction and exponent.
Integers produce `jnum`, anything with fraction or exponent a `jfloat`
carrying the matched text.  Returns `none` when no number starts here. -/
def jScanNum (l : List Char) (pos : Nat) : Option (JValue × List Char × Nat) :=
  let (neg, l1, sgnLen) := match l with
    | '-' :: t => (true, t, 1)
    | _ => (false, l, 0)
  match jIntPart l1 with
  | none => none
  | some (ids, r1) =>
    let (fds, r2) := (jFracPart r1).getD ([], r1)
    let (eds, r3) := (jExpPart r2).getD ([], r2)
    let len := sgnLen + ids.length + fds.length + eds.length
    if fds.isEmpty ∧ eds.isEmpty then
      let v : Int := Int.ofNat (natDigitsVal ids)
      some (.jnum (if neg then -v else v), r3, pos + len)
    else
      some (.jfloat (String.mk ((if neg then ['-'] else []) ++ ids ++ fds ++ eds)),
        r3, pos + len)

/-- The continuations of the JSON scanner, so that the whole scanner is one
structural recursion on its fuel (a mutual definition would be compiled by
well-founded recursion, which does not evaluate definitionally): scan a
value, scan an object body after the opening brace, scan the object item
loop (entered just after the opening quote of a key at index `bg`), scan an
array body after the opening bracket, or scan the array element loop. -/
inductive JTask where
  | value (l : List Char) (pos : Nat)
  | objBody (l : List Char) (pos : Nat)
  | objItems (l : List Char) (pos : Nat) (bg : Nat) (acc : List (String × JValue))
  | arrBody (l : List Char) (pos : Nat)
  | arrItems (l : List Char) (pos : Nat) (acc : List JValue)

/-- The Python `json` scanner.  `.value` is `scan_once`: dispatch on the
first character to a string, object, array, constant or number; anything
else is "Expecting value".  `.objBody`/`.objItems` parse `{}` or a
comma-separated list of string keys, `:` and values; `.arrBody`/`.arrItems`
parse `[]` or comma-separated values.  The fuel decreases on every
recursive call; `jsonLoads` supplies more fuel than any input can
consume. -/
def jRun : Nat → JTask → Except (String × Nat) (JValue × List Char × Nat)
  | 0, _ => .error ("Expecting value", 0)
  | fuel + 1, .value l pos =>
    match l with
    | [] => .error ("Expecting value", pos)
    | c :: rest =>
      if c = '"' then
        (jScanStr (rest.length + 1) rest (pos + 1) pos []).map (fun (s, r, p) => (.jstr s, r, p))
      else if c = '\x7b' then
        jRun fuel (.objBody rest (pos + 1))
      else if c = '[' then
        jRun fuel (.arrBody rest (pos + 1))
      else if ['n', 'u', 'l', 'l'].isPrefixOf l then
        .ok (.jnull, l.drop 4, pos + 4)
      else if ['t', 'r', 'u', 'e'].isPrefixOf l then
        .ok (.jbool true, l.drop 4, pos + 4)
      else if ['f', 'a', 'l', 's', 'e'].isPrefixOf l then
        .ok (.jbool false, l.drop 5, pos + 5)
      else
        match jScanNum l pos with
        | some res => .ok res
        | none =>
          if ['N', 'a', 'N'].isPrefixOf l then
            .ok (.jfloat "NaN", l.drop 3, pos + 3)
          else if ['I', 'n', 'f', 'i', 'n', 'i', 't', 'y'].isPrefixOf l then
            .ok (.jfloat "Infinity", l.drop 8, pos + 8)
          else if ['-', 'I', 'n', 'f', 'i', 'n', 'i', 't', 'y'].isPrefixOf l then
            .ok (.jfloat "-Infinity", l.drop 9, pos + 9)
          else .error ("Expecting value", pos)
  | fuel + 1, .objBody l pos =>
    let (l1, p1) := jSkipWs l pos
    match l1 with
    | '\x7d' :: r => .ok (.jobj [], r, p1 + 1)
    | '"' :: r => jRun fuel (.objItems r (p1 + 1) p1 [])
    | _ => .error ("Expecting property name enclosed in double quotes", p1)
  | fuel + 1, .objItems l pos bg acc =>
    match jScanStr (l.length + 1) l pos bg [] with
    | .error e => .error e
    | .ok (key, r1, p1) =>
      let (r2, p2) := jSkipWs r1 p1
      match r2 with
      | ':' :: r3 =>
        let (r4, p4) := jSkipWs r3 (p2 + 1)
        match jRun fuel (.value r4 p4) with
        | .error e => .error e
        | .ok (v, r5, p5) =>
          let (r6, p6) := jSkipWs r5 p5
          match r6 with
          | '\x7d' :: r7 => .ok (.jobj ((acc ++ [(key, v)])), r7, p6 + 1)
          | ',' :: r7 =>
            let (r8, p8) := jSkipWs r7 (p6 + 1)
            match r8 with
            | '"' :: r9 => jRun fuel (.objItems r9 (p8 + 1) p8 (acc ++ [(key, v)]))
            | _ => .error ("Expecting property name enclosed in double quotes", p8)
          | _ => .error ("Expecting " ++ quoted "," ++ " delimiter", p6)
      | _ => .error ("Expecting " ++ quoted ":" ++ " delimiter", p2)
  | fuel + 1, .arrBody l pos =>
    let (l1, p1) := jSkipWs l pos
    match l1 with
    | ']' :: r => .ok (.jarr [], r, p1 + 1)
    | _ => jRun fuel (.arrItems l1 p1 [])
  | fuel + 1, .arrItems l pos acc =>
    match jRun fuel (.value l pos) with
    | .error e => .error e
    | .ok (v, r1, p1) =>
      let (r2, p2) := jSkipWs r1 p1
      match r2 with
      | ']' :: r3 => .ok (.jarr (acc ++ [v]), r3, p2 + 1)
      | ',' :: r3 =>
        let (r4, p4) := jSkipWs r3 (p2 + 1)
        jRun fuel (.arrItems r4 p4 (acc ++ [v]))
      | _ => .error ("Expecting " ++ quoted "," ++ " delimiter", p2)

/-- `scan_once` of the Python scanner. -/
def jScan (fuel : Nat) (l : List Char) (pos : Nat) :
    Except (String × Nat) (JValue × List Char × Nat) :=
  jRun fuel (.value l pos)


/-- Render a JSON error as `json.JSONDecodeError` does: message plus line,
column and character offset computed from the document. -/
def jsonErrRender (doc : String) (msg : String) (pos : Nat) : PyErr :=
  let before := doc.data.take pos
  let line := before.count '\n' + 1
  let col := (before.reverse.takeWhile (fun c => c ≠ '\n')).length + 1
  .jsonDecodeError (msg ++ ": line " ++ toString line ++ " column " ++ toString col ++
    " (char " ++ toString pos ++ ")")

/-- `json.loads` (line 45 of `serve.py`): reject a leading BOM, skip
whitespace, scan one value, and require only whitespace to follow. -/
def jsonLoads (s : String) : Except PyErr JValue :=
  if s.data.head? = some (Char.ofNat 0xFEFF) then
    .error (jsonErrRender s "Unexpected UTF-8 BOM (decode using utf-8-sig)" 0)
  else
    let (l0, p0) := jSkipWs s.data 0
    match jScan (s.data.length + 8) l0 p0 with
    | .error (m, p) => .error (jsonErrRender s m p)
    | .ok (v, rest, p) =>
      let (rest2, p2) := jSkipWs rest p
      match rest2 with
      | [] => .ok v
      | _ => .error (jsonErrRender s "Extra data" p2)

/-! ### The decode pipeline of the `try` block (lines 42-45 of `serve.py`) -/

/-- Lines 42-45 of `serve.py`: pad, base64url-decode, UTF-8-decode, JSON
parse.  Any stage can raise; the handler catches the exception. -/
def decodeChain (event_data : String) : Except PyErr JValue := do
  let decoded_bytes ← urlsafe_b64decode (padded event_data)
  let event_json ← decodeUtf8 decoded_bytes
  jsonLoads event_json

/-! ### The log lines printed by `do_GET` -/

/-- Line 21: `print(f"\n📨 Request: {self.path}")`. -/
def reqLine (selfPath : String) : String := "\n📨 Request: " ++ selfPath

/-- Line 28: `print(f"🎯 Event ID: {event_id}")`. -/
def idLine (event_id : String) : String := "🎯 Event ID: " ++ event_id

/-- Line 30: the first 50 characters of the event value, with an ellipsis
marker exactly when the full value is longer than 50 characters. -/
def dataLine (d : String) : String :=
  "📦 Event Data: " ++ String.mk (d.data.take 50) ++
    (if 50 < d.data.length then "..." else "")

/-- Line 31: the full character length of the event value. -/
def sizeLine (d : String) : String :=
  "📏 Event Data Size: " ++ toString d.data.length ++ " characters"

/-- Line 33: the advisory note printed when the event value is absent or
empty; nothing is measured or enforced. -/
def noteLine : String := "ℹ️  Event data not included (likely > 500KB)"

/-- Line 47: the success banner. -/
def successHeader : String := "✅ Event decoded successfully:"

/-- Line 55: the failure notice, embedding `str(e)` of the caught
exception. -/
def errLine (e : PyErr) : String := "❌ Error decoding event: " ++ errStr e

/-- Line 48: `f"   Kind: {event.get('kind', 'unknown')}"`. -/
def kindLine (event : JValue) : Except PyErr String :=
  (pyGet event "kind" (.jstr "unknown")).map (fun v => "   Kind: " ++ pyStr v)

/-- Line 49: `f"   Author: {event.get('pubkey', 'unknown')[:16]}..."` —
the ellipsis marker is part of the f-string, so it follows the sliced value
unconditionally. -/
def authorLine (event : JValue) : Except PyErr String := do
  let v ← pyGet event "pubkey" (.jstr "unknown")
  let s ← pySliceTo v 16
  pure ("   Author: " ++ pyStr s ++ "...")

/-- Line 50: the content preview, `event.get('content', '')[:100]` followed
by an ellipsis marker exactly when `len(event.get('content', ''))` exceeds
100 (the field is fetched twice, as the f-string does). -/
def contentLine (event : JValue) : Except PyErr String := do
  let v ← pyGet event "content" (.jstr "")
  let s ← pySliceTo v 100
  let v2 ← pyGet event "content" (.jstr "")
  let n ← pyLen v2
  pure ("   Content: " ++ pyStr s ++ (if 100 < n then "..." else ""))

/-- Line 51: `f"   Created: {event.get('created_at', 'unknown')}"`. -/
def createdLine (event : JValue) : Except PyErr String :=
  (pyGet event "created_at" (.jstr "unknown")).map (fun v => "   Created: " ++ pyStr v)

/-- Executes a sequence of print statements inside the `try` block: lines
printed before a raising statement are kept, the exception of the first
raising statement is reported, the rest is skipped. -/
def runPrints : List (Except PyErr String) → List String × Option PyErr
  | [] => ([], none)
  | .ok s :: rest =>
    let (ls, e) := runPrints rest
    (s :: ls, e)
  | .error e :: _ => ([], some e)

/-- The whole `try`/`except` block (lines 37-55): on a decode failure only
the failure notice is printed; on success the banner and the four field
lines, with a failure notice appended if one of those lines raises. -/
def tryLines (event_data : String) : List String :=
  match decodeChain event_data with
  | .error e => [errLine e]
  | .ok event =>
    let (ls, e) := runPrints
      [kindLine event, authorLine event, contentLine event, createdLine event]
    successHeader ::
      (ls ++ (match e with | some e0 => [errLine e0] | none => []))

/-- Association lookup in the parsed query mapping (`key in query_params` /
`query_params[key]`); `parse_qs` produces each key once. -/
def lookupQ (qp : List (String × List String)) (k : String) : Option (List String) :=
  (qp.find? (fun p => p.1 == k)).map Prod.snd

/-- Lines 24-55 of `do_GET`, given the parsed query mapping: nothing is
printed beyond the request line unless `id` is present; with `id`, the
event value is previewed and decoded when present and non-empty, and the
advisory note is printed otherwise.  (`query_params['id'][0]` is modelled
with a default for the value list being empty, which `parse_qs` never
produces — see `parse_qs_values_ne_nil`.) -/
def handleQuery (qp : List (String × List String)) : List String :=
  match lookupQ qp "id" with
  | none => []
  | some vs =>
    let event_id := vs.headD ""
    let event_data : Option String := (lookupQ qp "event").bind List.head?
    let d := event_data.getD ""
    idLine event_id ::
      ((if d = "" then [noteLine] else [dataLine d, sizeLine d]) ++
        (if d = "" then [] else tryLines d))

/-! ### URL parsing (`urlparse`, `parse_qs`, `unquote`) -/

/-- The part of a character list before the first occurrence of `c`. -/
def beforeChar (c : Char) (l : List Char) : List Char :=
  l.takeWhile (fun x => x ≠ c)

/-- The part of a character list after the first occurrence of `c` (empty
when `c` does not occur). -/
def afterChar (c : Char) (l : List Char) : List Char :=
  (l.dropWhile (fun x => x ≠ c)).drop 1

/-! #### `urllib.parse.urlparse` (query extraction and its error path)

`urlparse(self.path)` on line 17 is `urlsplit`: it strips leading WHATWG C0
control or space characters, removes every tab, carriage return and line
feed, splits off a scheme when the prefix before the first `:` is a valid
scheme, and — when the remainder starts with `//` — extracts the netloc up
to the next `/`, `?` or `#` and validates its brackets: an unbalanced `[`
or `]` raises `ValueError("Invalid IPv6 URL")`, and a bracketed host must
be a valid IPvFuture or IPv6 address (`_check_bracketed_host`, CPython
3.11+), else a `ValueError` is raised.  `http.server` catches only
`TimeoutError`, so such a `ValueError` escapes `do_GET`.  The remaining
`_checknetloc` NFKC check can only raise for characters outside Latin-1,
which `self.path` — decoded from the request line as ISO-8859-1 — can
never contain, so it is not modelled. -/

/-- Leading-edge strip of WHATWG C0 control or space characters
(`url.lstrip(_WHATWG_C0_CONTROL_OR_SPACE)`). -/
def lstripC0Space (l : List Char) : List Char :=
  l.dropWhile (fun c => c.toNat ≤ 0x20)

/-- Removal of the unsafe URL bytes tab, CR and LF
(`_UNSAFE_URL_BYTES_TO_REMOVE`). -/
def stripUnsafe (l : List Char) : List Char :=
  l.filter (fun c => c ≠ '\t' ∧ c ≠ '\r' ∧ c ≠ '\n')

/-- The characters permitted in a URL scheme. -/
def isSchemeChar (c : Char) : Bool :=
  c.isAlphanum ∨ c = '+' ∨ c = '-' ∨ c = '.'

/-- Scheme splitting of `urlsplit`: when a `:` occurs at position `i > 0`
and everything before it is a valid scheme (first character an ASCII
letter, the rest scheme characters), the scheme and the colon are removed;
otherwise the URL is unchanged. -/
def removeScheme (l : List Char) : List Char :=
  if 0 < (l.takeWhile (fun c => c ≠ ':')).length ∧
      (l.takeWhile (fun c => c ≠ ':')).length < l.length then
    if ((l.takeWhile (fun c => c ≠ ':')).headD ' ').isAlpha ∧
        (l.takeWhile (fun c => c ≠ ':')).all isSchemeChar then
      l.drop ((l.takeWhile (fun c => c ≠ ':')).length + 1)
    else l
  else l

/-- Is `c` a hexadecimal digit? -/
def isHexDigitCh (c : Char) : Bool := (hexVal c).isSome

/-- One octet of a dotted IPv4 address (`ipaddress._parse_octet`):
non-empty, ASCII digits only, at most 3 characters, no leading zero unless
the octet is exactly `0`, and at most 255. -/
def isValidOctet (p : List Char) : Bool :=
  ¬ p.isEmpty ∧ p.all Char.isDigit ∧ p.length ≤ 3 ∧
    (p = ['0'] ∨ p.headD 'x' ≠ '0') ∧ natDigitsVal p ≤ 255

/-- A valid dotted IPv4 address (`ipaddress.IPv4Address` on a string):
non-empty, exactly four octets. -/
def isValidIPv4 (host : List Char) : Bool :=
  ¬ host.isEmpty ∧
    (let octets := host.splitOn '.'
     octets.length = 4 ∧ octets.all isValidOctet)

/-- One hextet of an IPv6 address (`_parse_hextet`): non-empty hex digits,
at most four. -/
def isValidHextet (p : List Char) : Bool :=
  ¬ p.isEmpty ∧ p.length ≤ 4 ∧ p.all isHexDigitCh

/-- The colon-separated part list of an IPv6 address
(`_ip_int_from_string` after the IPv4-suffix replacement): at most one
empty part strictly inside (the `::`), an empty first or last part only
directly next to it, at most seven parts besides the `::`, and exactly
eight parts when there is no `::`; the parts outside the skipped range are
hextets. -/
def isValidIPv6Parts (parts : List (List Char)) : Bool :=
  let n := parts.length
  match (List.range n).filter
      (fun i => 0 < i ∧ i + 1 < n ∧ (parts.getD i ['x']).isEmpty) with
  | [] => n = 8 ∧ parts.all isValidHextet
  | [i] =>
    let hi := if (parts.getD 0 ['x']).isEmpty then i - 1 else i
    let lo := (n - i - 1) - (if (parts.getLastD ['x']).isEmpty then 1 else 0)
    ((parts.getD 0 ['x']).isEmpty → i = 1) ∧
      ((parts.getLastD ['x']).isEmpty → i = n - 2) ∧
      hi + lo ≤ 7 ∧
      (parts.take hi).all isValidHextet ∧ (parts.drop (n - lo)).all isValidHextet
  | _ => false

/-- A valid IPv6 address string (`ipaddress.IPv6Address`): an optional
non-empty `%scope` (without further `%`), at least three colon-separated
parts, an optional embedded dotted IPv4 address as the last part (which
stands for two hextets), and the part-list rules of `isValidIPv6Parts`. -/
def isValidIPv6 (host : List Char) : Bool :=
  (if host.contains '%' then
    ¬ (afterChar '%' host).isEmpty ∧ ¬ (afterChar '%' host).contains '%'
  else true) ∧
    (let addr := host.takeWhile (fun c => c ≠ '%')
     let parts := addr.splitOn ':'
     3 ≤ parts.length ∧
       (let lastPart := parts.getLastD []
        if lastPart.contains '.' then
          isValidIPv4 lastPart ∧
            (let parts2 := parts.dropLast ++ [['0'], ['0']]
             parts2.length ≤ 9 ∧ isValidIPv6Parts parts2)
        else parts.length ≤ 9 ∧ isValidIPv6Parts parts))

/-- Does `v` followed by `tail` match the IPvFuture pattern
`v[a-fA-F0-9]+\..+` (anchored, `.` not matching a line feed)? -/
def isIPvFutureTail (tail : List Char) : Bool :=
  match tail.takeWhile isHexDigitCh,
      tail.drop (tail.takeWhile isHexDigitCh).length with
  | _ :: _, '.' :: c :: t => ¬ (c :: t).contains '\n'
  | _, _ => false

/-- `_check_bracketed_host` (CPython 3.11+): a host starting with `v` must
be an IPvFuture address (`v`, hex digits, a dot, at least one more
character, no line feed); anything else must parse as an IP address, an
IPv4 one being rejected in brackets. -/
def checkBracketedHost (host : List Char) : Except PyErr Unit :=
  match host with
  | 'v' :: rest =>
    if isIPvFutureTail rest then .ok ()
    else .error (.valueError "IPvFuture address is invalid")
  | _ =>
    if isValidIPv4 host then
      .error (.valueError "An IPv4 address cannot be in brackets")
    else if isValidIPv6 host then .ok ()
    else
      .error (.valueError (quoted (String.mk host) ++
        " does not appear to be an IPv4 or IPv6 address"))

/-- The netloc handling of `urlsplit`: when the URL (after scheme removal)
starts with `//`, the netloc runs to the next `/`, `?` or `#`; unbalanced
brackets raise `Invalid IPv6 URL`, a bracketed host (the text between the
first `[` and the following `]`) is validated, and parsing continues on
the rest.  URLs not starting with `//` pass through unchanged. -/
def netlocCheck (l : List Char) : Except PyErr (List Char) :=
  if l.take 2 = ['/', '/'] then
    let netloc := (l.drop 2).takeWhile (fun c => c ≠ '/' ∧ c ≠ '?' ∧ c ≠ '#')
    let rest := (l.drop 2).dropWhile (fun c => c ≠ '/' ∧ c ≠ '?' ∧ c ≠ '#')
    if (netloc.contains '[' ∧ ¬ netloc.contains ']') ∨
        (netloc.contains ']' ∧ ¬ netloc.contains '[') then
      .error (.valueError "Invalid IPv6 URL")
    else if netloc.contains '[' ∧ netloc.contains ']' then
      match checkBracketedHost ((afterChar '[' netloc).takeWhile (fun c => c ≠ ']')) with
      | .error e => .error e
      | .ok _ => .ok rest
    else .ok rest
  else .ok l

/-- The query component `urlparse(self.path).query` of line 17, with the
error path: strip and clean the URL, remove a scheme, extract and validate
a netloc, then split the fragment (everything from the first `#`) and take
the query as what follows the first `?` of the remainder. -/
def urlparseQuery (selfPath : String) : Except PyErr String :=
  match netlocCheck (removeScheme (stripUnsafe (lstripC0Space selfPath.data))) with
  | .error e => .error e
  | .ok rest => .ok (String.mk (afterChar '?' (beforeChar '#' rest)))

/-- The path the delegated `SimpleHTTPRequestHandler.do_GET` actually
serves: `translate_path` cuts `self.path` at the first `?` and the first
`#`; the remaining resolution against the serving directory is the
library's static-file lookup, a function of this string only. -/
def serveTarget (selfPath : String) : String :=
  String.mk (beforeChar '#' (beforeChar '?' selfPath.data))

/-- The replacement character U+FFFD. -/
def fffd : Char := Char.ofNat 0xFFFD

/-- UTF-8 decoding with `errors="replace"`, used by `unquote`: each
maximal invalid subpart is replaced by one U+FFFD (an invalid start byte is
consumed alone; a sequence whose continuation byte is invalid is consumed up
to, not including, that byte; a truncated sequence at the end is consumed
whole).  The fuel only serves termination and exceeds any input's needs. -/
def utf8ReplaceGo : Nat → List Nat → List Char
  | 0, _ => []
  | _ + 1, [] => []
  | fuel + 1, b :: rest =>
    if b < 0x80 then Char.ofNat b :: utf8ReplaceGo fuel rest
    else if b < 0xC2 then fffd :: utf8ReplaceGo fuel rest
    else if b < 0xE0 then
      match rest with
      | [] => [fffd]
      | b1 :: r1 =>
        if utf8Cont b1 then
          Char.ofNat ((b - 0xC0) * 64 + (b1 - 0x80)) :: utf8ReplaceGo fuel r1
        else fffd :: utf8ReplaceGo fuel rest
    else if b < 0xF0 then
      match rest with
      | [] => [fffd]
      | b1 :: r1 =>
        if (if b = 0xE0 then 0xA0 ≤ b1 ∧ b1 < 0xC0
            else if b = 0xED then 0x80 ≤ b1 ∧ b1 < 0xA0
            else utf8Cont b1 = true) then
          match r1 with
          | [] => [fffd]
          | b2 :: r2 =>
            if utf8Cont b2 then
              Char.ofNat ((b - 0xE0) * 4096 + (b1 - 0x80) * 64 + (b2 - 0x80)) ::
                utf8ReplaceGo fuel r2
            else fffd :: utf8ReplaceGo fuel r1
        else fffd :: utf8ReplaceGo fuel rest
    else if b < 0xF5 then
      match rest with
      | [] => [fffd]
      | b1 :: r1 =>
        if (if b = 0xF0 then 0x90 ≤ b1 ∧ b1 < 0xC0
            else if b = 0xF4 then 0x80 ≤ b1 ∧ b1 < 0x90
            else utf8Cont b1 = true) then
          match r1 with
          | [] => [fffd]
          | b2 :: r2 =>
            if utf8Cont b2 then
              match r2 with
              | [] => [fffd]
              | b3 :: r3 =>
                if utf8Cont b3 then
                  Char.ofNat ((b - 0xF0) * 262144 + (b1 - 0x80) * 4096 +
                      (b2 - 0x80) * 64 + (b3 - 0x80)) :: utf8ReplaceGo fuel r3
                else fffd :: utf8ReplaceGo fuel r2
            else fffd :: utf8ReplaceGo fuel r1
        else fffd :: utf8ReplaceGo fuel rest
    else fffd :: utf8ReplaceGo fuel rest

/-- UTF-8 decoding with replacement, fuel instantiated. -/
def utf8Replace (bs : List Nat) : List Char := utf8ReplaceGo (bs.length + 1) bs

/-- Tokenize a percent-encoded string: a `%` followed by two hex digits is a
byte, an invalid percent sequence stays literal (rescanning right after the
`%`), everything else is a literal character. -/
def unquoteTokens : List Char → List (Sum Char Nat)
  | [] => []
  | '%' :: h1 :: h2 :: rest =>
    match hexVal h1, hexVal h2 with
    | some a, some b => .inr (a * 16 + b) :: unquoteTokens rest
    | _, _ => .inl '%' :: unquoteTokens (h1 :: h2 :: rest)
  | '%' :: rest => .inl '%' :: unquoteTokens rest
  | c :: rest => .inl c :: unquoteTokens rest

/-- Assemble the unquoted text: maximal runs of percent-decoded bytes are
decoded together as UTF-8 with replacement, literal characters pass
through. -/
def unquoteGo : List (Sum Char Nat) → List Nat → List Char
  | [], buf => utf8Replace buf
  | .inl c :: rest, buf => utf8Replace buf ++ c :: unquoteGo rest []
  | .inr b :: rest, buf => unquoteGo rest (buf ++ [b])

/-- `urllib.parse.unquote` with the default UTF-8 encoding and replacement
error handling. -/
def unquote (s : String) : String := String.mk (unquoteGo (unquoteTokens s.data) [])

/-- The `+`-to-space replacement `parse_qsl` applies before unquoting. -/
def plusToSpace (s : String) : String :=
  String.mk (s.data.map (fun c => if c = '+' then ' ' else c))

/-- One `name=value` chunk of `parse_qsl`: an empty chunk is skipped, a
chunk without `=` is skipped, a chunk whose raw value is empty is skipped
(`keep_blank_values=False`), otherwise name and value get the
`+`-to-space replacement and percent-unquoting. -/
def qsPair (nv : List Char) : Option (String × String) :=
  if nv.isEmpty then none
  else
    match nv.dropWhile (fun c => c ≠ '=') with
    | [] => none
    | _ :: value =>
      if value.isEmpty then none
      else some (unquote (plusToSpace (String.mk (nv.takeWhile (fun c => c ≠ '=')))),
        unquote (plusToSpace (String.mk value)))

/-- `urllib.parse.parse_qsl` with default arguments: split the query on
`&` and keep the surviving name/value pairs. -/
def parse_qsl (qs : String) : List (String × String) :=
  (qs.data.splitOn '&').filterMap qsPair

/-- Insert one name/value pair into the grouped mapping as `parse_qs`
builds its dict: append to the value list of an existing key, else add the
key at the end. -/
def addQsPair (acc : List (String × List String)) (kv : String × String) :
    List (String × List String) :=
  if acc.any (fun p => p.1 == kv.1) then
    acc.map (fun p => if p.1 == kv.1 then (p.1, p.2 ++ [kv.2]) else p)
  else acc ++ [(kv.1, [kv.2])]

/-- `urllib.parse.parse_qs` with default arguments (line 18 of
`serve.py`). -/
def parse_qs (qs : String) : List (String × List String) :=
  (parse_qsl qs).foldl addQsPair []

/-- The whole `do_GET` override.  When `urlparse` on line 17 raises, the
`ValueError` escapes the handler (`http.server` catches only
`TimeoutError`): nothing is printed and the delegation on line 57 never
runs — that is the `.error` case.  Otherwise the result is the printed log
(request line plus the event handling of lines 24-55) and the delegation
to the library's static-file serving, which receives the unchanged
`self.path` and serves the query- and fragment-stripped target. -/
def do_GET (selfPath : String) : Except PyErr (List String × String) :=
  match urlparseQuery selfPath with
  | .error e => .error e
  | .ok query =>
    .ok (reqLine selfPath :: handleQuery (parse_qs query), serveTarget selfPath)

/-! ## Supporting lemmas -/

/-- Characters of the base64url alphabet: `A`-`Z`, `a`-`z`, `0`-`9`, `-`,
`_`. -/
def isB64urlChar (c : Char) : Bool :=
  (65 ≤ c.toNat ∧ c.toNat ≤ 90) ∨ (97 ≤ c.toNat ∧ c.toNat ≤ 122) ∨
    (48 ≤ c.toNat ∧ c.toNat ≤ 57) ∨ c = '-' ∨ c = '_'

theorem isB64urlChar_table (c : Char) (h : isB64urlChar c = true) :
    (b64Table (urlsafeTranslate c)).isSome = true := by
  by_cases h1 : c = '-'
  · subst h1; decide
  by_cases h2 : c = '_'
  · subst h2; decide
  have ht : urlsafeTranslate c = c := by simp [urlsafeTranslate, h1, h2]
  rw [ht]
  simp only [isB64urlChar, decide_eq_true_eq] at h
  rcases h with ⟨h3, h4⟩ | ⟨h3, h4⟩ | ⟨h3, h4⟩ | h3 | h3
  · simp only [b64Table]; split_ifs <;> simp_all
  · simp only [b64Table]; split_ifs <;> simp_all
  · simp only [b64Table]; split_ifs <;> simp_all
  · exact absurd h3 h1
  · exact absurd h3 h2

theorem isB64urlChar_ascii (c : Char) (h : isB64urlChar c = true) :
    c.toNat < 128 := by
  simp only [isB64urlChar, decide_eq_true_eq] at h
  rcases h with ⟨h3, h4⟩ | ⟨h3, h4⟩ | ⟨h3, h4⟩ | h3 | h3
  · omega
  · omega
  · omega
  · subst h3; decide
  · subst h3; decide

theorem a2bGo_cons_data (c : Char) (v : Nat) (hc : b64Table c = some v)
    (rest : List Char) (st : B64State) :
    a2bGo (c :: rest) st = a2bGo rest (b64DataStep st v) := by
  have hne : c ≠ '=' := by
    intro h
    rw [h] at hc
    have h0 : b64Table '=' = none := by decide
    rw [h0] at hc
    exact Option.noConfusion hc
  simp [a2bGo, hne, hc]

/-- Folding the data steps of a list of alphabet characters. -/
def b64Fold (st : B64State) (l : List Char) : B64State :=
  l.foldl (fun s c => b64DataStep s ((b64Table c).getD 0)) st

theorem a2bGo_append_data (l tail : List Char) (st : B64State)
    (h : ∀ c ∈ l, (b64Table c).isSome = true) :
    a2bGo (l ++ tail) st = a2bGo tail (b64Fold st l) := by
  induction l generalizing st with
  | nil => rfl
  | cons c l ih =>
    obtain ⟨v, hv⟩ := Option.isSome_iff_exists.mp (h c (by simp))
    rw [List.cons_append, a2bGo_cons_data c v hv]
    rw [ih (b64DataStep st v) (fun c hc => h c (by simp [hc]))]
    simp [b64Fold, hv]

theorem b64DataStep_quadPos (st : B64State) (v : Nat) (h : st.quadPos < 4) :
    (b64DataStep st v).quadPos = (st.quadPos + 1) % 4 := by
  rcases st with ⟨q, a, b, o⟩
  have hq : q < 4 := h
  interval_cases q <;> simp [b64DataStep]

theorem b64DataStep_quadPos_lt (st : B64State) (v : Nat) (h : st.quadPos < 4) :
    (b64DataStep st v).quadPos < 4 := by
  rw [b64DataStep_quadPos st v h]
  omega

theorem b64Fold_quadPos (l : List Char) (st : B64State) (h : st.quadPos < 4) :
    (b64Fold st l).quadPos = (st.quadPos + l.length) % 4 := by
  induction l generalizing st with
  | nil => simp [b64Fold, Nat.mod_eq_of_lt h]
  | cons c l ih =>
    show (b64Fold (b64DataStep st ((b64Table c).getD 0)) l).quadPos = _
    rw [ih _ (b64DataStep_quadPos_lt st _ h), b64DataStep_quadPos st _ h]
    simp [List.length_cons]
    omega

theorem a2bGo_replicate_eq (n : Nat) (st : B64State) (h : st.quadPos < 2) :
    a2bGo (List.replicate n '=') st = b64Finish st := by
  induction n with
  | zero => rfl
  | succ n ih =>
    rw [List.replicate_succ]
    have h2 : ¬ (2 ≤ st.quadPos) := by omega
    simp only [a2bGo, if_pos rfl, h2, if_false]
    exact ih

theorem a2bGo_data_finish (l : List Char) (st : B64State)
    (h : ∀ c ∈ l, (b64Table c).isSome = true) :
    a2bGo l st = b64Finish (b64Fold st l) := by
  have h2 := a2bGo_append_data l [] st h
  rw [List.append_nil] at h2
  rw [h2]
  rfl

/-! ## Claims -/

/-- Claim C1, counterexample.  The claim states the value is right-padded
with `(4 - L mod 4) mod 4` equal signs, "so a value whose length is already
a multiple of 4 receives no padding": but line 42 computes `4 - L % 4`,
which is 4 (not 0) for a length-4 value such as `"AAAA"`. -/
theorem c1_padding_counterexample :
    padCount 4 ≠ specPadCount 4 ∧ padded "AAAA" = "AAAA====" := by
  constructor
  · decide
  · rfl

/-- Claim C1 as amended: before decoding, a base64url value of length `L`
is right-padded with `4 - (L mod 4)` equal signs (so a value whose length
is a multiple of 4 receives four of them, which the non-strict decoder
ignores: the decode result is the same as without padding), and for every
`L` with `L mod 4 = 1` the subsequent decode fails with an error rather
than a padding miscalculation. -/
theorem c1_padding (s : String) (hb : s.data.all isB64urlChar = true) :
    padCount s.data.length = 4 - s.data.length % 4 ∧
    (s.data.length % 4 = 1 →
      ∃ e, urlsafe_b64decode (padded s) = .error e) ∧
    (s.data.length % 4 = 0 →
      urlsafe_b64decode (padded s) = urlsafe_b64decode s) := by
  have hball : ∀ c ∈ s.data, isB64urlChar c = true := by
    simpa [List.all_eq_true] using hb
  have hdata : (padded s).data =
      s.data ++ List.replicate (padCount s.data.length) '=' := by
    simp [padded, String.data_append]
  have hascii : ∀ (t : List Char), (∀ c ∈ s.data, isB64urlChar c = true) →
      (s.data ++ List.replicate t.length '=').all (fun c => decide (c.toNat < 128)) = true := by
    intro t h
    simp only [List.all_append, Bool.and_eq_true, List.all_eq_true]
    constructor
    · intro c hc
      simpa using isB64urlChar_ascii c (h c hc)
    · intro c hc
      rw [List.eq_of_mem_replicate hc]
      decide
  have hmap : ∀ c ∈ s.data.map urlsafeTranslate, (b64Table c).isSome = true := by
    intro c hc
    obtain ⟨c0, hc0, rfl⟩ := List.mem_map.mp hc
    exact isB64urlChar_table c0 (hball c0 hc0)
  refine ⟨rfl, ?_, ?_⟩
  · intro hmod
    have hl : s.length = s.data.length := rfl
    have hpad : padCount s.data.length = 3 := by
      simp only [padCount, hl, hmod]
    rw [hpad] at hdata
    have hasc : (padded s).data.all (fun c => decide (c.toNat < 128)) = true := by
      rw [hdata]
      exact hascii (List.replicate 3 '=') hball
    unfold urlsafe_b64decode
    rw [if_pos hasc, hdata, List.map_append, List.map_replicate]
    have : urlsafeTranslate '=' = '=' := by decide
    rw [this]
    rw [a2bGo_append_data _ _ _ hmap]
    have hq : (b64Fold b64Init (s.data.map urlsafeTranslate)).quadPos = 1 := by
      rw [b64Fold_quadPos _ _ (by decide)]
      simp only [b64Init, List.length_map]
      omega
    rw [a2bGo_replicate_eq _ _ (by omega)]
    rcases hst : b64Fold b64Init (s.data.map urlsafeTranslate) with ⟨q, la, pa, oa⟩
    rw [hst] at hq
    simp only at hq
    subst hq
    refine ⟨.binasciiError ("Invalid base64-encoded string: number of data characters (" ++
      toString (oa.length / 3 * 4 + 1) ++ ") cannot be 1 more than a multiple of 4"), ?_⟩
    simp [b64Finish]
  · intro hmod
    have hl : s.length = s.data.length := rfl
    have hpad : padCount s.data.length = 4 := by
      simp only [padCount, hl, hmod]
    rw [hpad] at hdata
    have hasc : (padded s).data.all (fun c => decide (c.toNat < 128)) = true := by
      rw [hdata]
      exact hascii (List.replicate 4 '=') hball
    have hasc2 : s.data.all (fun c => decide (c.toNat < 128)) = true := by
      simp only [List.all_eq_true]
      intro c hc
      simpa using isB64urlChar_ascii c (hball c hc)
    unfold urlsafe_b64decode
    rw [if_pos hasc, if_pos hasc2, hdata, List.map_append, List.map_replicate]
    have : urlsafeTranslate '=' = '=' := by decide
    rw [this]
    rw [a2bGo_append_data _ _ _ hmap]
    have hq : (b64Fold b64Init (s.data.map urlsafeTranslate)).quadPos = 0 := by
      rw [b64Fold_quadPos _ _ (by decide)]
      simp only [b64Init, List.length_map]
      omega
    rw [a2bGo_replicate_eq _ _ (by omega)]
    rw [a2bGo_data_finish _ _ hmap]

/-- Witness for `c1_padding` at the four-character value `"AAAA"` and the
one-character value `"A"`. -/
theorem c1_padding_witness :
    "A".data.all isB64urlChar = true ∧
    (∃ e, urlsafe_b64decode (padded "A") = .error e) ∧
    urlsafe_b64decode (padded "AAAA") = urlsafe_b64decode "AAAA" :=
  ⟨by decide, (c1_padding "A" (by decide)).2.1 (by decide),
    (c1_padding "AAAA" (by decide)).2.2 (by decide)⟩

theorem kindLine_obj (fs : List (String × JValue)) :
    kindLine (.jobj fs) =
      .ok ("   Kind: " ++ pyStr ((dictFind fs "kind").getD (.jstr "unknown"))) := by
  simp [kindLine, pyGet, Except.map]

theorem createdLine_obj (fs : List (String × JValue)) :
    createdLine (.jobj fs) =
      .ok ("   Created: " ++ pyStr ((dictFind fs "created_at").getD (.jstr "unknown"))) := by
  simp [createdLine, pyGet, Except.map]

theorem authorLine_obj_str (fs : List (String × JValue)) (p : String)
    (h : dictFind fs "pubkey" = some (.jstr p)) :
    authorLine (.jobj fs) = .ok ("   Author: " ++ String.mk (p.data.take 16) ++ "...") := by
  simp [authorLine, pyGet, h, pySliceTo, pyStr, Except.bind, bind, pure, Except.pure]

theorem authorLine_obj_none (fs : List (String × JValue))
    (h : dictFind fs "pubkey" = none) :
    authorLine (.jobj fs) = .ok "   Author: unknown..." := by
  simp [authorLine, pyGet, h, pySliceTo, pyStr, Except.bind, bind, pure, Except.pure]

theorem contentLine_obj_str (fs : List (String × JValue)) (s : String)
    (h : dictFind fs "content" = some (.jstr s)) :
    contentLine (.jobj fs) =
      .ok ("   Content: " ++ String.mk (s.data.take 100) ++
        (if 100 < s.data.length then "..." else "")) := by
  simp [contentLine, pyGet, h, pySliceTo, pyLen, pyStr, Except.bind, bind, pure, Except.pure]

theorem contentLine_obj_none (fs : List (String × JValue))
    (h : dictFind fs "content" = none) :
    contentLine (.jobj fs) = .ok "   Content: " := by
  simp [contentLine, pyGet, h, pySliceTo, pyLen, pyStr, Except.bind, bind, pure, Except.pure]

theorem runPrints_ok_cons (s : String) (l : List (Except PyErr String)) :
    runPrints (.ok s :: l) = ((s :: (runPrints l).1, (runPrints l).2)) := by
  simp [runPrints]

/-- Claim C2: whenever an event value is present (the request parsed, so a
query mapping exists) and its decode fails — at the base64, UTF-8 or JSON
stage — the handler prints exactly the failure notice containing the
rendered error, completes normally (the log is the usual request, event-id
and preview lines plus the notice, nothing aborts), and the delegation to
static-file serving still happens with the same target as always, so the
HTTP response is unaffected. -/
theorem c2_decode_failure_logged (sp qs eid d : String) (restIds : List String)
    (e : PyErr)
    (hq : urlparseQuery sp = .ok qs)
    (hid : lookupQ (parse_qs qs) "id" = some (eid :: restIds))
    (hev : (lookupQ (parse_qs qs) "event").bind List.head? = some d)
    (hne : d ≠ "")
    (hfail : decodeChain d = .error e) :
    do_GET sp = .ok
      ([reqLine sp, idLine eid, dataLine d, sizeLine d, errLine e], serveTarget sp) := by
  have hstep : do_GET sp =
      .ok (reqLine sp :: handleQuery (parse_qs qs), serveTarget sp) := by
    unfold do_GET
    rw [hq]
  rw [hstep]
  unfold handleQuery
  rw [hid, hev]
  simp [hne, tryLines, hfail]

/-- Witness for `c2_decode_failure_logged`: the one-character value `"A"`
fails at the base64 stage. -/
theorem c2_witness :
    decodeChain "A" = .error (.binasciiError
      ("Invalid base64-encoded string: number of data characters (1) " ++
        "cannot be 1 more than a multiple of 4")) ∧
    do_GET "/x?id=a&event=A" = .ok
      ([reqLine "/x?id=a&event=A", idLine "a", dataLine "A", sizeLine "A",
        errLine (.binasciiError
          ("Invalid base64-encoded string: number of data characters (1) " ++
            "cannot be 1 more than a multiple of 4"))], serveTarget "/x?id=a&event=A") :=
  ⟨by rfl,
    c2_decode_failure_logged "/x?id=a&event=A" "id=a&event=A" "a" "A" [] _
      (by rfl) (by rfl) (by rfl) (by decide) (by rfl)⟩

/-- The base64url encoding of the JSON document
`{"kind":1,"pubkey":"abcd1234abcd1234extra","content":"hello","created_at":1700000000}`. -/
def c3EventB64 : String :=
  "eyJraW5kIjoxLCJwdWJrZXkiOiJhYmNkMTIzNGFiY2QxMjM0ZXh0cmEiLCJjb250ZW50Ijoi" ++
  "aGVsbG8iLCJjcmVhdGVkX2F0IjoxNzAwMDAwMDAwfQ"

set_option maxRecDepth 100000 in
set_option maxHeartbeats 1000000 in
/-- Claim C3: the valid payload decodes to exactly the four fields, and the
handler (with `id` also present) prints kind `1` and created_at
`1700000000` as-is, the pubkey preview truncated to its first 16 characters
with the ellipsis marker, and the 5-character content `"hello"` unmodified
with no ellipsis marker. -/
theorem c3_concrete_payload :
    decodeChain c3EventB64 = .ok (.jobj
      [("kind", .jnum 1), ("pubkey", .jstr "abcd1234abcd1234extra"),
        ("content", .jstr "hello"), ("created_at", .jnum 1700000000)]) ∧
    do_GET ("/?id=test&event=" ++ c3EventB64) = .ok
      ([reqLine ("/?id=test&event=" ++ c3EventB64), idLine "test",
        dataLine c3EventB64, sizeLine c3EventB64, successHeader,
        "   Kind: 1", "   Author: abcd1234abcd1234...",
        "   Content: hello", "   Created: 1700000000"], "/") := by
  constructor
  · rfl
  · rfl

/-- Claim C4: on a successful decode, the printed author line shows the
first 16 characters of the pubkey followed by the ellipsis marker (the
marker is part of the f-string, so it also follows the `"unknown"` default
shown when the pubkey field is absent). -/
theorem c4_author_line (d : String) (fs : List (String × JValue))
    (hd : decodeChain d = .ok (.jobj fs)) :
    (∀ p : String, dictFind fs "pubkey" = some (.jstr p) →
      ("   Author: " ++ String.mk (p.data.take 16) ++ "...") ∈ tryLines d) ∧
    (dictFind fs "pubkey" = none → "   Author: unknown..." ∈ tryLines d) := by
  constructor
  · intro p hp
    simp only [tryLines, hd, kindLine_obj, authorLine_obj_str fs p hp, runPrints_ok_cons]
    simp
  · intro hp
    simp only [tryLines, hd, kindLine_obj, authorLine_obj_none fs hp, runPrints_ok_cons]
    simp

set_option maxRecDepth 100000 in
set_option maxHeartbeats 1000000 in
/-- Witness for `c4_author_line`: `"e30"` decodes to the empty object (no
pubkey), and the `c3EventB64` payload has a 21-character pubkey. -/
theorem c4_witness :
    decodeChain "e30" = .ok (.jobj []) ∧ "   Author: unknown..." ∈ tryLines "e30" ∧
    ("   Author: " ++ String.mk ("abcd1234abcd1234extra".data.take 16) ++ "...") ∈
      tryLines c3EventB64 :=
  ⟨by rfl, (c4_author_line "e30" [] (by rfl)).2 (by rfl),
    (c4_author_line c3EventB64
        [("kind", .jnum 1), ("pubkey", .jstr "abcd1234abcd1234extra"),
          ("content", .jstr "hello"), ("created_at", .jnum 1700000000)]
        (by rfl)).1 "abcd1234abcd1234extra" (by rfl)⟩

/-- Claim C5: the content preview of a decoded event whose content field is
a string is exactly the first 100 characters followed by the ellipsis
marker when the field exceeds 100 characters, and the unmodified value with
no marker otherwise; the truncation is presentation-only — the decoded
event still holds the full field (its `get` result and length are
unchanged). -/
theorem c5_content_truncation (fs : List (String × JValue)) (s : String)
    (hc : dictFind fs "content" = some (.jstr s)) :
    (100 < s.data.length →
      contentLine (.jobj fs) =
        .ok ("   Content: " ++ String.mk (s.data.take 100) ++ "...")) ∧
    (s.data.length ≤ 100 → contentLine (.jobj fs) = .ok ("   Content: " ++ s)) ∧
    pyGet (.jobj fs) "content" (.jstr "") = .ok (.jstr s) ∧
    pyLen (.jstr s) = .ok s.data.length := by
  refine ⟨?_, ?_, ?_, rfl⟩
  · intro h
    rw [contentLine_obj_str fs s hc]
    have hh : 100 < s.length := h
    simp [hh]
  · intro h
    rw [contentLine_obj_str fs s hc]
    have hds : s.length = s.data.length := rfl
    have h1 : ¬ (100 < s.length) := by rw [hds]; omega
    have h2 : String.mk (s.data.take 100) = s := by
      rw [List.take_of_length_le h]
    simp [h1, h2]
  · simp [pyGet, hc]

/-- Witness for `c5_content_truncation` on a 101-character and a
2-character content value. -/
theorem c5_witness :
    (let long := String.mk (List.replicate 101 'y');
      contentLine (.jobj [("content", .jstr long)]) =
        .ok ("   Content: " ++ String.mk (long.data.take 100) ++ "...")) ∧
    contentLine (.jobj [("content", .jstr "hi")]) = .ok "   Content: hi" :=
  ⟨(c5_content_truncation [("content", .jstr (String.mk (List.replicate 101 'y')))]
      (String.mk (List.replicate 101 'y')) (by rfl)).1 (by decide),
    (c5_content_truncation [("content", .jstr "hi")] "hi" (by rfl)).2.1 (by decide)⟩

/-- Claim C6: with `id` present and a non-empty event value, the handler
prints the preview line — first 50 characters, ellipsis marker appended
exactly when the value exceeds 50 characters — and the size line showing
the full character length, unaffected by the preview truncation. -/
theorem c6_event_preview (qp : List (String × List String)) (eid d : String)
    (restIds : List String)
    (hid : lookupQ qp "id" = some (eid :: restIds))
    (hev : (lookupQ qp "event").bind List.head? = some d)
    (hne : d ≠ "") :
    dataLine d ∈ handleQuery qp ∧ sizeLine d ∈ handleQuery qp ∧
    (50 < d.data.length →
      dataLine d = "📦 Event Data: " ++ String.mk (d.data.take 50) ++ "...") ∧
    (d.data.length ≤ 50 → dataLine d = "📦 Event Data: " ++ d) ∧
    sizeLine d = "📏 Event Data Size: " ++ toString d.data.length ++ " characters" := by
  refine ⟨?_, ?_, ?_, ?_, rfl⟩
  · unfold handleQuery
    rw [hid, hev]
    simp [hne]
  · unfold handleQuery
    rw [hid, hev]
    simp [hne]
  · intro h
    have hh : 50 < d.length := h
    simp [dataLine, hh]
  · intro h
    have hds : d.length = d.data.length := rfl
    have h1 : ¬ (50 < d.length) := by rw [hds]; omega
    have h2 : String.mk (d.data.take 50) = d := by
      rw [List.take_of_length_le h]
    simp [dataLine, h1, h2]

/-- Witness for `c6_event_preview` at a concrete query mapping with a
2-character event value. -/
theorem c6_witness :
    dataLine "xy" ∈ handleQuery [("id", ["a"]), ("event", ["xy"])] ∧
    dataLine "xy" = "📦 Event Data: xy" ∧
    sizeLine "xy" = "📏 Event Data Size: 2 characters" :=
  ⟨(c6_event_preview [("id", ["a"]), ("event", ["xy"])] "a" "xy" []
      (by rfl) (by rfl) (by decide)).1,
    (c6_event_preview [("id", ["a"]), ("event", ["xy"])] "a" "xy" []
      (by rfl) (by rfl) (by decide)).2.2.2.1 (by decide),
    (c6_event_preview [("id", ["a"]), ("event", ["xy"])] "a" "xy" []
      (by rfl) (by rfl) (by decide)).2.2.2.2⟩

theorem takeWhile_append_all {α : Type} (pr : α → Bool) (l1 l2 : List α)
    (h : ∀ a ∈ l1, pr a = true) :
    (l1 ++ l2).takeWhile pr = l1 ++ l2.takeWhile pr := by
  induction l1 with
  | nil => simp
  | cons a l ih =>
    have ha := h a (by simp)
    simp [List.takeWhile_cons, ha, ih (fun x hx => h x (by simp [hx]))]

/-- Claim C8: for a successfully decoded event, a missing field is not an
error — a missing `kind` or `created_at` is printed as the `unknown`
sentinel, a missing `content` as the empty string — and on an event with
all optional fields absent the whole success block prints and the handler
completes normally (no failure notice). -/
theorem c8_missing_fields (fs : List (String × JValue)) :
    (dictFind fs "kind" = none → kindLine (.jobj fs) = .ok "   Kind: unknown") ∧
    (dictFind fs "created_at" = none →
      createdLine (.jobj fs) = .ok "   Created: unknown") ∧
    (dictFind fs "content" = none → contentLine (.jobj fs) = .ok "   Content: ") ∧
    (∀ d : String, decodeChain d = .ok (.jobj fs) →
      dictFind fs "kind" = none → dictFind fs "pubkey" = none →
      dictFind fs "content" = none → dictFind fs "created_at" = none →
      tryLines d = [successHeader, "   Kind: unknown", "   Author: unknown...",
        "   Content: ", "   Created: unknown"]) := by
  refine ⟨?_, ?_, ?_, ?_⟩
  · intro h
    rw [kindLine_obj, h]
    rfl
  · intro h
    rw [createdLine_obj, h]
    rfl
  · intro h
    exact contentLine_obj_none fs h
  · intro d hd hk hp hc hca
    simp only [tryLines, hd, kindLine_obj, hk, createdLine_obj, hca,
      authorLine_obj_none fs hp, contentLine_obj_none fs hc, runPrints_ok_cons]
    simp [runPrints]
    exact ⟨rfl, rfl⟩

/-- Witness for `c8_missing_fields`: `"e30"` decodes to the empty object. -/
theorem c8_witness :
    kindLine (.jobj []) = .ok "   Kind: unknown" ∧
    tryLines "e30" = [successHeader, "   Kind: unknown", "   Author: unknown...",
      "   Content: ", "   Created: unknown"] :=
  ⟨(c8_missing_fields []).1 rfl,
    (c8_missing_fields []).2.2.2 "e30" (by rfl) rfl rfl rfl rfl⟩

/-- Claim C9: when the request parsed and its query mapping contains `id`
but the event value is absent or empty, the handler prints only the
advisory note after the request and event-id lines — no preview, no size
line, no decode attempt — and still delegates to static-file serving;
nothing measures or enforces any size. -/
theorem c9_advisory_note (sp qs eid : String) (restIds : List String)
    (hq : urlparseQuery sp = .ok qs)
    (hid : lookupQ (parse_qs qs) "id" = some (eid :: restIds))
    (hev : (lookupQ (parse_qs qs) "event").bind List.head? = none ∨
      (lookupQ (parse_qs qs) "event").bind List.head? = some "") :
    do_GET sp = .ok ([reqLine sp, idLine eid, noteLine], serveTarget sp) := by
  have hstep : do_GET sp =
      .ok (reqLine sp :: handleQuery (parse_qs qs), serveTarget sp) := by
    unfold do_GET
    rw [hq]
  rw [hstep]
  unfold handleQuery
  rw [hid]
  rcases hev with h | h <;> rw [h] <;> simp

/-- Witness for `c9_advisory_note` at `"/?id=abc"` (event absent). -/
theorem c9_witness :
    do_GET "/?id=abc" =
      .ok ([reqLine "/?id=abc", idLine "abc", noteLine], serveTarget "/?id=abc") :=
  c9_advisory_note "/?id=abc" "id=abc" "abc" [] (by rfl) (by rfl) (Or.inl (by rfl))

theorem utf8ReplaceGo_cons_ne_nil (fuel : Nat) (b : Nat) (rest : List Nat) :
    utf8ReplaceGo (fuel + 1) (b :: rest) ≠ [] := by
  unfold utf8ReplaceGo
  repeat' split
  all_goals simp

theorem utf8Replace_ne_nil (l : List Nat) (h : l ≠ []) : utf8Replace l ≠ [] := by
  rcases l with _ | ⟨b, rest⟩
  · exact absurd rfl h
  · exact utf8ReplaceGo_cons_ne_nil ((b :: rest).length) b rest

theorem unquoteTokens_ne_nil (l : List Char) (h : l ≠ []) : unquoteTokens l ≠ [] := by
  rcases l with _ | ⟨c, rest⟩
  · exact absurd rfl h
  · unfold unquoteTokens
    repeat' split
    all_goals simp_all

theorem unquoteGo_ne_nil (toks : List (Sum Char Nat)) (buf : List Nat)
    (h : toks ≠ [] ∨ buf ≠ []) : unquoteGo toks buf ≠ [] := by
  induction toks generalizing buf with
  | nil =>
    rcases h with h | h
    · exact absurd rfl h
    · exact utf8Replace_ne_nil buf h
  | cons t rest ih =>
    rcases t with c | b
    · simp [unquoteGo]
    · exact ih (buf ++ [b]) (Or.inr (by simp))

theorem unquote_ne_empty (s : String) (h : s.data ≠ []) : unquote s ≠ "" := by
  intro hcontra
  have hdata : (unquote s).data = [] := by rw [hcontra]
  have : unquoteGo (unquoteTokens s.data) [] = [] := hdata
  exact unquoteGo_ne_nil _ [] (Or.inl (unquoteTokens_ne_nil s.data h)) this

theorem qsPair_snd_ne (nv : List Char) (kv : String × String)
    (h : qsPair nv = some kv) : kv.2 ≠ "" := by
  unfold qsPair at h
  split at h
  · exact absurd h (by simp)
  · split at h
    · exact absurd h (by simp)
    · rename_i value heq
      split at h
      · exact absurd h (by simp)
      · rename_i hne
        have hkv : kv.2 = unquote (plusToSpace (String.mk value)) := by
          have := (Option.some.injEq _ _).mp h
          rw [← this]
        rw [hkv]
        apply unquote_ne_empty
        have hv : value ≠ [] := by simpa [List.isEmpty_iff] using hne
        simpa [plusToSpace, List.map_eq_nil_iff] using hv

theorem parse_qsl_snd_ne (qs : String) (kv : String × String)
    (h : kv ∈ parse_qsl qs) : kv.2 ≠ "" := by
  obtain ⟨nv, _, hnv⟩ := List.mem_filterMap.mp h
  exact qsPair_snd_ne nv kv hnv

/-- The invariant preserved while `parse_qs` groups pairs: every stored
value is non-empty. -/
def QVals (acc : List (String × List String)) : Prop :=
  ∀ p ∈ acc, ∀ v ∈ p.2, v ≠ ""

theorem addQsPair_preserves (acc : List (String × List String))
    (kv : String × String) (hacc : QVals acc) (hkv : kv.2 ≠ "") :
    QVals (addQsPair acc kv) := by
  intro p hp v hv
  unfold addQsPair at hp
  split at hp
  · obtain ⟨p0, hp0, rfl⟩ := List.mem_map.mp hp
    split at hv
    · rcases List.mem_append.mp hv with h1 | h1
      · exact hacc p0 hp0 v h1
      · rw [List.mem_singleton.mp h1]; exact hkv
    · exact hacc p0 hp0 v hv
  · rcases List.mem_append.mp hp with h1 | h1
    · exact hacc p h1 v hv
    · rw [List.mem_singleton.mp h1] at hv
      rw [List.mem_singleton.mp hv]
      exact hkv

theorem foldl_addQsPair_preserves (l : List (String × String))
    (acc : List (String × List String)) (hacc : QVals acc)
    (hl : ∀ kv ∈ l, kv.2 ≠ "") : QVals (l.foldl addQsPair acc) := by
  induction l generalizing acc with
  | nil => exact hacc
  | cons kv rest ih =>
    exact ih (addQsPair acc kv)
      (addQsPair_preserves acc kv hacc (hl kv (by simp)))
      (fun kv2 h2 => hl kv2 (by simp [h2]))

/-- Every value stored by `parse_qs` is a non-empty string: blank-valued
parameters were dropped by `qsPair` before grouping. -/
theorem parse_qs_values_ne_empty (qs : String) (k : String) (vs : List String)
    (h : lookupQ (parse_qs qs) k = some vs) : ∀ v ∈ vs, v ≠ "" := by
  intro v hv
  unfold lookupQ at h
  rcases hf : (parse_qs qs).find? (fun p => p.1 == k) with _ | p
  · rw [hf] at h
    exact absurd h (by simp)
  · rw [hf] at h
    have hp2 : p.2 = vs := by simpa using h
    have hmem : p ∈ parse_qs qs := List.mem_of_find?_eq_some hf
    have hQ : QVals (parse_qs qs) :=
      foldl_addQsPair_preserves (parse_qsl qs) [] (by intro x hx; simp at hx)
        (fun kv hkv => parse_qsl_snd_ne qs kv hkv)
    exact hQ p hmem v (by rw [hp2]; exact hv)

/-- The value lists `parse_qs` stores are never empty: a key enters the
mapping together with its first value, so `query_params[key][0]` on a
present key cannot fail (this justifies modelling the indexing with a
defaulted head in `handleQuery`). -/
theorem parse_qs_values_ne_nil (qs : String) (k : String) (vs : List String)
    (h : lookupQ (parse_qs qs) k = some vs) : vs ≠ [] := by
  have hinv : ∀ (l : List (String × String)) (acc : List (String × List String)),
      (∀ p ∈ acc, p.2 ≠ []) → ∀ p ∈ l.foldl addQsPair acc, p.2 ≠ [] := by
    intro l
    induction l with
    | nil => intro acc hacc; exact hacc
    | cons kv rest ih =>
      intro acc hacc
      apply ih
      intro p hp
      unfold addQsPair at hp
      split at hp
      · obtain ⟨p0, hp0, rfl⟩ := List.mem_map.mp hp
        split
        · simp
        · exact hacc p0 hp0
      · rcases List.mem_append.mp hp with h1 | h1
        · exact hacc p h1
        · rw [List.mem_singleton.mp h1]
          simp
  unfold lookupQ at h
  rcases hf : (parse_qs qs).find? (fun p => p.1 == k) with _ | p
  · rw [hf] at h
    exact absurd h (by simp)
  · rw [hf] at h
    have hp2 : p.2 = vs := by simpa using h
    rw [← hp2]
    exact hinv (parse_qsl qs) [] (by intro x hx; simp at hx) p
      (List.mem_of_find?_eq_some hf)

theorem dropWhile_append_all {α : Type} (pr : α → Bool) (l1 l2 : List α)
    (h : ∀ a ∈ l1, pr a = true) :
    (l1 ++ l2).dropWhile pr = l2.dropWhile pr := by
  induction l1 with
  | nil => simp
  | cons a l ih =>
    have ha := h a (by simp)
    simp [List.dropWhile_cons, ha, ih (fun x hx => h x (by simp [hx]))]

theorem afterBefore_clean_append (p q : String)
    (hp : ∀ c ∈ p.data, c ≠ '?' ∧ c ≠ '#') (hq : ∀ c ∈ q.data, c ≠ '#') :
    afterChar '?' (beforeChar '#' (p.data ++ '?' :: q.data)) = q.data := by
  unfold beforeChar afterChar
  rw [List.takeWhile_eq_self_iff.mpr (fun a ha => by
    rcases List.mem_append.mp ha with h1 | h1
    · simpa using (hp a h1).2
    · rcases List.mem_cons.mp h1 with h2 | h2
      · subst h2; decide
      · simpa using hq a h2)]
  rw [dropWhile_append_all _ p.data ('?' :: q.data)
    (fun a ha => by simpa using (hp a ha).1)]
  rw [show ('?' :: q.data).dropWhile (fun x => x ≠ '?') = '?' :: q.data by simp]
  rfl

theorem dropWhile_eq_nil_of_all {α : Type} (pr : α → Bool) (l : List α)
    (h : ∀ a ∈ l, pr a = true) : l.dropWhile pr = [] := by
  induction l with
  | nil => rfl
  | cons a t ih =>
    have ha := h a (by simp)
    simp [List.dropWhile_cons, ha, ih (fun x hx => h x (by simp [hx]))]

theorem afterBefore_clean (p : String) (hp : ∀ c ∈ p.data, c ≠ '?' ∧ c ≠ '#') :
    afterChar '?' (beforeChar '#' p.data) = [] := by
  unfold beforeChar afterChar
  rw [List.takeWhile_eq_self_iff.mpr (fun a ha => by simpa using (hp a ha).2)]
  rw [dropWhile_eq_nil_of_all _ p.data (fun a ha => by simpa using (hp a ha).1)]
  rfl

theorem serveTarget_clean_append (p q : String)
    (hp : ∀ c ∈ p.data, c ≠ '?' ∧ c ≠ '#') :
    serveTarget (p ++ "?" ++ q) = p := by
  have hdata : (p ++ "?" ++ q).data = p.data ++ '?' :: q.data := by
    rw [String.data_append, String.data_append, List.append_assoc]
    rfl
  unfold serveTarget beforeChar
  rw [hdata]
  rw [takeWhile_append_all _ p.data ('?' :: q.data)
    (fun a ha => by simpa using (hp a ha).1)]
  rw [show ('?' :: q.data).takeWhile (fun x => x ≠ '?') = [] by simp]
  rw [List.append_nil]
  rw [List.takeWhile_eq_self_iff.mpr (fun a ha => by simpa using (hp a ha).2)]

theorem serveTarget_clean (p : String)
    (hp : ∀ c ∈ p.data, c ≠ '?' ∧ c ≠ '#') :
    serveTarget p = p := by
  unfold serveTarget beforeChar
  rw [show p.data.takeWhile (fun x => x ≠ '?') = p.data from
    List.takeWhile_eq_self_iff.mpr (fun a ha => by simpa using (hp a ha).1)]
  rw [show p.data.takeWhile (fun x => x ≠ '#') = p.data from
    List.takeWhile_eq_self_iff.mpr (fun a ha => by simpa using (hp a ha).2)]

def cleanPathChar (c : Char) : Bool :=
  0x20 < c.toNat ∧ c ≠ '?' ∧ c ≠ '#' ∧ c ≠ ':'

theorem cleanPathChar_spec (c : Char) (h : cleanPathChar c = true) :
    0x20 < c.toNat ∧ c ≠ '?' ∧ c ≠ '#' ∧ c ≠ ':' ∧
      c ≠ '\t' ∧ c ≠ '\r' ∧ c ≠ '\n' := by
  simp only [cleanPathChar, Bool.decide_and, Bool.and_eq_true, decide_eq_true_eq] at h
  obtain ⟨h1, h2, h3, h4⟩ := h
  refine ⟨h1, h2, h3, h4, ?_, ?_, ?_⟩ <;>
    · intro he
      subst he
      exact absurd h1 (by decide)

theorem lstripC0Space_eq_self (l : List Char)
    (h : ∀ c ∈ l.take 1, 0x20 < c.toNat) :
    lstripC0Space l = l := by
  cases l with
  | nil => rfl
  | cons a t =>
    have ha : 0x20 < a.toNat := h a (by simp)
    have hpa : (fun c : Char => decide (c.toNat ≤ 0x20)) a = false := by
      simp only [decide_eq_false_iff_not]
      omega
    simp [lstripC0Space, List.dropWhile_cons, hpa]

theorem stripUnsafe_eq_self (l : List Char)
    (h : ∀ c ∈ l, c ≠ '\t' ∧ c ≠ '\r' ∧ c ≠ '\n') :
    stripUnsafe l = l := by
  unfold stripUnsafe
  exact List.filter_eq_self.mpr (fun a ha => by simpa using h a ha)

theorem removeScheme_eq_self_of_no_colon (l : List Char) (h : ':' ∉ l) :
    removeScheme l = l := by
  have ht : l.takeWhile (fun c => c ≠ ':') = l :=
    List.takeWhile_eq_self_iff.mpr (fun a ha => by
      simp only [ne_eq, decide_not, Bool.not_eq_true', decide_eq_false_iff_not]
      intro heq
      exact h (heq ▸ ha))
  unfold removeScheme
  rw [ht]
  simp

theorem removeScheme_append_qmark (p t : List Char) (hp : ':' ∉ p) :
    removeScheme (p ++ '?' :: t) = p ++ '?' :: t := by
  have hpre : (p ++ '?' :: t).takeWhile (fun c => c ≠ ':') =
      p ++ '?' :: t.takeWhile (fun c => c ≠ ':') := by
    rw [takeWhile_append_all _ p ('?' :: t) (fun a ha => by
      simp only [ne_eq, decide_not, Bool.not_eq_true', decide_eq_false_iff_not]
      intro heq
      exact hp (heq ▸ ha))]
    simp [List.takeWhile_cons]
  have h0 : isSchemeChar '?' = false := by decide
  have hall : (p ++ '?' :: t.takeWhile (fun c => c ≠ ':')).all isSchemeChar
      = false := by
    simp [List.all_append, List.all_cons, h0]
  unfold removeScheme
  rw [hpre, hall]
  simp

theorem take_two_append_qmark_ne (p t : List Char)
    (hpre : p.take 2 ≠ ['/', '/']) :
    (p ++ '?' :: t).take 2 ≠ ['/', '/'] := by
  match p with
  | [] =>
    cases t with
    | nil => decide
    | cons c r =>
      intro hcon
      simp [List.take] at hcon
  | [a] =>
    intro hcon
    simp [List.take] at hcon
  | a :: b :: r =>
    have hab : ((a :: b :: r) ++ '?' :: t).take 2 = [a, b] := rfl
    rw [hab]
    intro hcon
    exact hpre (by rw [show (a :: b :: r).take 2 = [a, b] from rfl, hcon])

theorem netlocCheck_no_netloc (l : List Char) (h : l.take 2 ≠ ['/', '/']) :
    netlocCheck l = .ok l := by
  simp [netlocCheck, h]

theorem urlparseQuery_clean_append (p q : String)
    (hp : p.data.all cleanPathChar = true)
    (hpre : p.data.take 2 ≠ ['/', '/']) :
    urlparseQuery (p ++ "?" ++ q) =
      .ok (String.mk (afterChar '?'
        (beforeChar '#' (p.data ++ '?' :: stripUnsafe q.data)))) := by
  have hpc : ∀ c ∈ p.data, cleanPathChar c = true :=
    fun c hc => List.all_eq_true.mp hp c hc
  have hdata : (p ++ "?" ++ q).data = p.data ++ '?' :: q.data := by
    rw [String.data_append, String.data_append, List.append_assoc]
    rfl
  have h1 : lstripC0Space (p.data ++ '?' :: q.data) = p.data ++ '?' :: q.data := by
    apply lstripC0Space_eq_self
    intro c hc
    cases hd : p.data with
    | nil =>
      rw [hd] at hc
      simp at hc
      subst hc
      decide
    | cons a tl =>
      rw [hd] at hc
      simp [List.take] at hc
      subst hc
      exact (cleanPathChar_spec c (hpc c (by rw [hd]; simp))).1
  have h2 : stripUnsafe (p.data ++ '?' :: q.data) =
      p.data ++ '?' :: stripUnsafe q.data := by
    unfold stripUnsafe
    rw [List.filter_append]
    congr 1
    exact List.filter_eq_self.mpr (fun a ha => by
      obtain ⟨_, _, _, _, h5, h6, h7⟩ := cleanPathChar_spec a (hpc a ha)
      simpa using ⟨h5, h6, h7⟩)
  have h3 : removeScheme (p.data ++ '?' :: stripUnsafe q.data) =
      p.data ++ '?' :: stripUnsafe q.data :=
    removeScheme_append_qmark _ _ (fun hmem =>
      absurd rfl (cleanPathChar_spec ':' (hpc ':' hmem)).2.2.2.1)
  have h4 : netlocCheck (p.data ++ '?' :: stripUnsafe q.data) =
      .ok (p.data ++ '?' :: stripUnsafe q.data) :=
    netlocCheck_no_netloc _ (take_two_append_qmark_ne _ _ hpre)
  unfold urlparseQuery
  rw [hdata, h1, h2, h3, h4]

theorem urlparseQuery_clean (p : String)
    (hp : p.data.all cleanPathChar = true)
    (hpre : p.data.take 2 ≠ ['/', '/']) :
    urlparseQuery p = .ok "" := by
  have hpc : ∀ c ∈ p.data, cleanPathChar c = true :=
    fun c hc => List.all_eq_true.mp hp c hc
  have h1 : lstripC0Space p.data = p.data := by
    apply lstripC0Space_eq_self
    intro c hc
    exact (cleanPathChar_spec c (hpc c (List.mem_of_mem_take hc))).1
  have h2 : stripUnsafe p.data = p.data :=
    stripUnsafe_eq_self _ (fun c hc =>
      ⟨(cleanPathChar_spec c (hpc c hc)).2.2.2.2.1,
        (cleanPathChar_spec c (hpc c hc)).2.2.2.2.2.1,
        (cleanPathChar_spec c (hpc c hc)).2.2.2.2.2.2⟩)
  have h3 : removeScheme p.data = p.data :=
    removeScheme_eq_self_of_no_colon _ (fun hmem =>
      absurd rfl (cleanPathChar_spec ':' (hpc ':' hmem)).2.2.2.1)
  have h4 : netlocCheck p.data = .ok p.data := netlocCheck_no_netloc _ hpre
  have h5 : afterChar '?' (beforeChar '#' p.data) = [] :=
    afterBefore_clean p (fun c hc =>
      ⟨(cleanPathChar_spec c (hpc c hc)).2.1, (cleanPathChar_spec c (hpc c hc)).2.2.1⟩)
  unfold urlparseQuery
  rw [h1, h2, h3, h4]
  show Except.ok (String.mk (afterChar '?' (beforeChar '#' p.data))) =
    (.ok "" : Except PyErr String)
  rw [h5]

/-- Claim C7, counterexample: the request path `"a://[x"` makes
`urlparse` raise `ValueError('Invalid IPv6 URL')` at line 17, so the
handler never reaches the static-file delegation. -/
theorem c7_counterexample :
    do_GET "a://[x" = .error (.valueError "Invalid IPv6 URL") := by rfl

/-- Claim C7 as amended: whenever `urlparse` succeeds on the request path,
`do_GET` ends by delegating to static-file serving of the path before any
`?` or `#`; in particular for a path of printable non-reserved characters,
with or without a query string, the serve target is exactly the path. The
original universal claim fails on paths where `urlparse` raises. -/
theorem c7_static_serving (p q : String)
    (hp : p.data.all cleanPathChar = true)
    (hpre : p.data.take 2 ≠ ['/', '/']) :
    (∀ sp qs, urlparseQuery sp = .ok qs →
      (do_GET sp).map Prod.snd = .ok (serveTarget sp)) ∧
    (do_GET (p ++ "?" ++ q)).map Prod.snd = .ok p ∧
    (do_GET p).map Prod.snd = .ok p := by
  have hpc : ∀ c ∈ p.data, cleanPathChar c = true :=
    fun c hc => List.all_eq_true.mp hp c hc
  have hclean : ∀ c ∈ p.data, c ≠ '?' ∧ c ≠ '#' := fun c hc =>
    ⟨(cleanPathChar_spec c (hpc c hc)).2.1, (cleanPathChar_spec c (hpc c hc)).2.2.1⟩
  refine ⟨?_, ?_, ?_⟩
  · intro sp qs hq
    unfold do_GET
    rw [hq]
    rfl
  · unfold do_GET
    rw [urlparseQuery_clean_append p q hp hpre]
    simp [Except.map, serveTarget_clean_append p q hclean]
  · unfold do_GET
    rw [urlparseQuery_clean p hp hpre]
    simp [Except.map, serveTarget_clean p hclean]

/-- Witness for `c7_static_serving` at `"/index.html"` with and without the
query string `"a=1&b=2"`. -/
theorem c7_witness :
    (do_GET ("/index.html" ++ "?" ++ "a=1&b=2")).map Prod.snd
        = .ok "/index.html" ∧
    (do_GET "/index.html").map Prod.snd = .ok "/index.html" :=
  ⟨(c7_static_serving "/index.html" "a=1&b=2" (by decide) (by decide)).2.1,
    (c7_static_serving "/index.html" "a=1&b=2" (by decide) (by decide)).2.2⟩

/-- Claim C10: query parameters with a blank value are dropped by the query
parsing before the handler sees them — every value `parse_qs` stores is
non-empty; a request for a clean path with query string `id=` behaves
exactly as the bare path (no event logging at all, only the raw request
echo differs, same serve target), and query string `id=x&event=` yields the
advisory-note branch rather than any decode attempt. -/
theorem c10_blank_values_dropped :
    (∀ (qs k : String) (vs : List String),
      lookupQ (parse_qs qs) k = some vs → ∀ v ∈ vs, v ≠ "") ∧
    (∀ p : String, p.data.all cleanPathChar = true →
      p.data.take 2 ≠ ['/', '/'] →
      do_GET (p ++ "?" ++ "id=") = .ok ([reqLine (p ++ "?" ++ "id=")], p) ∧
      do_GET p = .ok ([reqLine p], p)) ∧
    (∀ p : String, p.data.all cleanPathChar = true →
      p.data.take 2 ≠ ['/', '/'] →
      do_GET (p ++ "?" ++ "id=x&event=") =
        .ok ([reqLine (p ++ "?" ++ "id=x&event="), idLine "x", noteLine], p)) := by
  refine ⟨parse_qs_values_ne_empty, ?_, ?_⟩
  · intro p hp hpre
    have hpc : ∀ c ∈ p.data, cleanPathChar c = true :=
      fun c hc => List.all_eq_true.mp hp c hc
    have hclean : ∀ c ∈ p.data, c ≠ '?' ∧ c ≠ '#' := fun c hc =>
      ⟨(cleanPathChar_spec c (hpc c hc)).2.1,
        (cleanPathChar_spec c (hpc c hc)).2.2.1⟩
    constructor
    · unfold do_GET
      rw [urlparseQuery_clean_append p "id=" hp hpre]
      rw [show stripUnsafe "id=".data = "id=".data from rfl]
      rw [afterBefore_clean_append p "id=" hclean (by decide)]
      rw [serveTarget_clean_append p "id=" hclean]
      rfl
    · unfold do_GET
      rw [urlparseQuery_clean p hp hpre]
      rw [serveTarget_clean p hclean]
      rfl
  · intro p hp hpre
    have hpc : ∀ c ∈ p.data, cleanPathChar c = true :=
      fun c hc => List.all_eq_true.mp hp c hc
    have hclean : ∀ c ∈ p.data, c ≠ '?' ∧ c ≠ '#' := fun c hc =>
      ⟨(cleanPathChar_spec c (hpc c hc)).2.1,
        (cleanPathChar_spec c (hpc c hc)).2.2.1⟩
    unfold do_GET
    rw [urlparseQuery_clean_append p "id=x&event=" hp hpre]
    rw [show stripUnsafe "id=x&event=".data = "id=x&event=".data from rfl]
    rw [afterBefore_clean_append p "id=x&event=" hclean (by decide)]
    rw [serveTarget_clean_append p "id=x&event=" hclean]
    rfl

/-- Witness for `c10_blank_values_dropped`: the value stored for `a` in
`"a=1"` is non-empty, and the two concrete behaviours at path `"/p"`. -/
theorem c10_witness :
    "1" ≠ "" ∧
    do_GET ("/p" ++ "?" ++ "id=") = .ok ([reqLine ("/p" ++ "?" ++ "id=")], "/p") ∧
    do_GET ("/p" ++ "?" ++ "id=x&event=") =
      .ok ([reqLine ("/p" ++ "?" ++ "id=x&event="), idLine "x", noteLine], "/p") :=
  ⟨c10_blank_values_dropped.1 "a=1" "a" ["1"] (by rfl) "1" (by decide),
    (c10_blank_values_dropped.2.1 "/p" (by decide) (by decide)).1,
    c10_blank_values_dropped.2.2 "/p" (by decide) (by decide)⟩

end PubSubDemo
